import Mathlib

/-!
Verification of the email fraud-detection engine (Go repository
`stoik/email-security`) against its natural-language specification.

Strings are modelled as `List Char` (Go strings with byte/rune-level
operations; all case-sensitive comparisons in the claims involve ASCII,
so `Char.toLower` faithfully models `strings.ToLower` on the inputs at
stake).  Go's `float64` arithmetic on the small decimal constants used
by the engine is modelled exactly over `ℚ`.  Timestamps, UUID fields and
the human-readable `Evidence` strings of detections are not inspected by
any claim and are omitted from the model.
-/

/-- Convenience conversion from a Lean string literal to the `List Char`
representation used throughout the model. -/
def str (s : String) : List Char := s.toList

/-- Model of Go `strings.ToLower` (ASCII case folding suffices for the
vocabularies and inputs of the claims). -/
def toLowerL (s : List Char) : List Char := s.map Char.toLower

/-- Helper for substring search: does `pat` occur at the head of `text`? -/
def leadMatch : List Char → List Char → Bool
  | _, [] => true
  | [], _ :: _ => false
  | c :: cs, p :: ps => c = p && leadMatch cs ps

/-- Model of Go `strings.Contains text pat`: `pat` occurs as a contiguous
substring of `text`. -/
def goContains : List Char → List Char → Bool
  | [], pat => pat.isEmpty
  | c :: cs, pat => leadMatch (c :: cs) pat || goContains cs pat

/-- Model of Go `strings.HasSuffix s suff`. -/
def goHasSuffix (s suff : List Char) : Bool :=
  leadMatch s.reverse suff.reverse

/-- Model of Go `strings.Split s sep` for a single-character separator
(the only use in the source is splitting on `"@"`). -/
def splitOnChar (sep : Char) : List Char → List (List Char)
  | [] => [[]]
  | c :: cs =>
    if c = sep then [] :: splitOnChar sep cs
    else
      match splitOnChar sep cs with
      | [] => [[c]]
      | p :: ps => (c :: p) :: ps

/-- Embedding of `extractDomain` (helpers.go): split the address on `@`;
if the result is not exactly two parts the domain is empty, otherwise it
is the lower-cased second part. -/
def extractDomain (email : List Char) : List Char :=
  let parts := splitOnChar '@' email
  if parts.length ≠ 2 then []
  else toLowerL (parts.getD 1 [])

/-- Embedding of `isInternalDomain` (helpers.go): linear scan for an
exact match. -/
def isInternalDomain (d : List Char) : List (List Char) → Bool
  | [] => false
  | i :: rest => if d = i then true else isInternalDomain d rest

/-- Embedding of `containsAny` (helpers.go): does `text` contain any of
the keywords? -/
def containsAny (text : List Char) (keywords : List (List Char)) : Bool :=
  keywords.any fun k => goContains text k

/-- Embedding of `countKeywords` (urgency_financial_strategy.go): how
many of the keywords occur in `text` (presence, not frequency). -/
def countKeywords (text : List Char) (keywords : List (List Char)) : Nat :=
  keywords.countP fun k => goContains text k

/-- Embedding of `levenshteinDistance` (helpers.go).  The source fills a
DP table whose entries obey `m[i][j] = min(m[i-1][j]+1, m[i][j-1]+1,
m[i-1][j-1]+cost)` with `m[i][0] = i`, `m[0][j] = j`; the structural
recursion below realizes exactly that recurrence on the two strings. -/
def levenshteinDistance : List Char → List Char → Nat
  | [], s2 => s2.length
  | x :: xs, [] => (x :: xs).length
  | x :: xs, y :: ys =>
    min (levenshteinDistance xs (y :: ys) + 1)
      (min (levenshteinDistance (x :: xs) ys + 1)
        (levenshteinDistance xs ys + if x = y then 0 else 1))

/-- Model of a message (models.go `Email`).  UUID/tenant/timestamp fields
and the unused `RecipientEmail` field are not inspected by any strategy
and are omitted. -/
structure Email where
  subject : List Char
  senderEmail : List Char
  senderName : List Char
  bodyPreview : List Char
  hasAttachments : Bool
  attachmentNames : List (List Char)
  headers : List (List Char × List Char)
deriving DecidableEq

/-- Model of a recipient (models.go `User`); only the fields consumed by
the detection engine. -/
structure User where
  email : List Char
  role : List Char
deriving DecidableEq

/-- Model of a detection signal (models.go `Detection`).  The
human-readable `Evidence` string is never inspected by the engine or the
claims and is omitted. -/
structure Detection where
  type : String
  confidence : ℚ
deriving DecidableEq

/-- Model of the shared detection context (strategy.go
`DetectionContext`). -/
structure DetectionContext where
  internalDomains : List (List Char)
  trustedDomains : List (List Char)
deriving DecidableEq

/-- Model of the analysis result (models.go `FraudAnalysis`); ID and
timestamp fields omitted. -/
structure FraudAnalysis where
  riskScore : ℚ
  riskLevel : String
  detectedThreats : List Detection
deriving DecidableEq

/-- Embedding of `RiskLevel` (models.go): score to categorical level. -/
def RiskLevel (score : ℚ) : String :=
  if score ≥ 0.85 then "critical"
  else if score ≥ 0.70 then "high"
  else if score ≥ 0.50 then "medium"
  else if score ≥ 0.30 then "low"
  else "none"

/-- Lookup of a header value in a message's header map (Go map access
returning an optional value). -/
def lookupHeader : List (List Char × List Char) → List Char → Option (List Char)
  | [], _ => none
  | (k, v) :: rest, key => if key = k then some v else lookupHeader rest key

/-- Embedding of `hasUrgencyLanguage` (helpers.go). -/
def hasUrgencyLanguage (e : Email) : Bool :=
  let text := toLowerL (e.subject ++ str " " ++ e.bodyPreview)
  containsAny text [str "urgent", str "immediately", str "asap",
    str "right away", str "today"]

/-- Embedding of `DisplayNameStrategy.Detect`
(display_name_strategy.go). -/
def displayNameDetect (e : Email) (_r : Option User)
    (ctx : DetectionContext) : Option Detection :=
  let displayName := toLowerL e.senderName
  let senderDomain := extractDomain e.senderEmail
  let execTitles := [str "ceo", str "cfo", str "president", str "director",
    str "chief", str "vp", str "vice president"]
  let hasExecTitle := execTitles.any fun title => goContains displayName title
  let isExternal := !isInternalDomain senderDomain ctx.internalDomains
  if hasExecTitle && isExternal then
    some { type := "DISPLAY_NAME_MISMATCH", confidence := 0.85 }
  else none

/-- Loop body of `TyposquattingStrategy.Detect` (models.go): walk the
trusted-domain list in order, skip exact matches, flag the first domain
with similarity strictly between 85 and 100. -/
def typosquatWalk (senderDomain : List Char) : List (List Char) → Option Detection
  | [] => none
  | trustedDomain :: rest =>
    if senderDomain = trustedDomain then typosquatWalk senderDomain rest
    else
      let distance : ℚ := (levenshteinDistance senderDomain trustedDomain : ℚ)
      let maxLen : ℚ := ((max senderDomain.length trustedDomain.length : Nat) : ℚ)
      let similarity := (1 - distance / maxLen) * 100
      if similarity > 85 ∧ similarity < 100 then
        some { type := "DOMAIN_TYPOSQUATTING", confidence := 0.90 }
      else typosquatWalk senderDomain rest

/-- Embedding of `TyposquattingStrategy.Detect` (models.go). -/
def typosquattingDetect (e : Email) (_r : Option User)
    (ctx : DetectionContext) : Option Detection :=
  typosquatWalk (extractDomain e.senderEmail) ctx.trustedDomains

/-- Embedding of `AuthFailuresStrategy.Detect`
(auth_failures_strategy.go): collect SPF/DKIM/DMARC failures, signal
when two or more failed. -/
def authFailuresDetect (e : Email) (_r : Option User)
    (_ctx : DetectionContext) : Option Detection :=
  let spfFailures : List String :=
    match lookupHeader e.headers (str "Received-SPF") with
    | some spf => if goContains (toLowerL spf) (str "fail") then ["SPF_FAIL"] else []
    | none => []
  let dkimDmarcFailures : List String :=
    match lookupHeader e.headers (str "Authentication-Results") with
    | some authResults =>
      (if goContains (toLowerL authResults) (str "dkim=fail") then ["DKIM_FAIL"] else []) ++
      (if goContains (toLowerL authResults) (str "dmarc=fail") then ["DMARC_FAIL"] else [])
    | none => []
  let failures := spfFailures ++ dkimDmarcFailures
  if failures.length ≥ 2 then
    some { type := "AUTH_FAILURES", confidence := 0.80 }
  else none

/-- Urgency vocabulary of `UrgencyFinancialStrategy.Detect`. -/
def urgencyKeywords : List (List Char) :=
  [str "urgent", str "immediately", str "asap", str "right away",
   str "time sensitive", str "today", str "end of day", str "eod",
   str "quick", str "need this now", str "hurry"]

/-- Financial vocabulary of `UrgencyFinancialStrategy.Detect`. -/
def financialKeywords : List (List Char) :=
  [str "wire transfer", str "payment", str "invoice", str "bank account",
   str "routing number", str "swift", str "ach", str "wire", str "fund",
   str "transfer", str "pay", str "urgent payment", str "gift card",
   str "itunes", str "google play", str "prepaid card"]

/-- Authority vocabulary of `UrgencyFinancialStrategy.Detect`. -/
def authorityKeywords : List (List Char) :=
  [str "ceo", str "president", str "director", str "approved",
   str "authorized", str "confidential", str "do not discuss",
   str "between us", str "sensitive", str "private"]

/-- Weighted keyword score of `UrgencyFinancialStrategy.Detect`
(urgency_financial_strategy.go): `0.3*urgency + 0.5*financial +
0.2*authority` over presence counts in the lower-cased subject+body. -/
def urgencyFinancialScore (e : Email) : ℚ :=
  let text := toLowerL (e.subject ++ str " " ++ e.bodyPreview)
  (countKeywords text urgencyKeywords : ℚ) * 0.3 +
    (countKeywords text financialKeywords : ℚ) * 0.5 +
    (countKeywords text authorityKeywords : ℚ) * 0.2

/-- Embedding of `UrgencyFinancialStrategy.Detect`
(urgency_financial_strategy.go). -/
def urgencyFinancialDetect (e : Email) (_r : Option User)
    (_ctx : DetectionContext) : Option Detection :=
  let score := urgencyFinancialScore e
  if score > 1.5 then
    some { type := "URGENCY_FINANCIAL_LANGUAGE",
           confidence := min (0.70 + (score - 1.5) * 0.1) 0.95 }
  else none

/-- Embedding of `ReplyToStrategy.Detect` (reply_to_strategy.go). -/
def replyToDetect (e : Email) (_r : Option User)
    (_ctx : DetectionContext) : Option Detection :=
  let senderEmail := toLowerL e.senderEmail
  let replyTo := toLowerL ((lookupHeader e.headers (str "Reply-To")).getD [])
  if replyTo = [] ∨ replyTo = senderEmail then none
  else
    let senderDomain := extractDomain senderEmail
    let replyToDomain := extractDomain replyTo
    let freeEmailDomains := [str "gmail.com", str "yahoo.com",
      str "hotmail.com", str "outlook.com", str "aol.com"]
    let isFreemail := freeEmailDomains.any fun freeDomain => replyToDomain = freeDomain
    if isFreemail && (replyToDomain ≠ senderDomain : Bool) then
      some { type := "REPLY_TO_MISMATCH", confidence := 0.75 }
    else none

/-- High-risk attachment extensions (attachment strategy). -/
def highRiskExtensions : List (List Char) :=
  [str ".exe", str ".scr", str ".bat", str ".cmd", str ".com", str ".pif",
   str ".vbs", str ".js", str ".jar", str ".msi", str ".app"]

/-- Medium-risk (macro-capable office) attachment extensions. -/
def mediumRiskExtensions : List (List Char) :=
  [str ".doc", str ".xls", str ".xlsm", str ".docm", str ".pptm"]

/-- Loop body of `AttachmentStrategy.Detect`: scan the attachment names
in order; per name, test high-risk extensions, then the double-extension
trick, then medium-risk extensions combined with urgency language; the
first name to trigger any rule produces the only signal. -/
def scanAttachments (e : Email) : List (List Char) → Option Detection
  | [] => none
  | name :: rest =>
    let filename := toLowerL name
    if highRiskExtensions.any fun ext => goHasSuffix filename ext then
      some { type := "HIGH_RISK_ATTACHMENT", confidence := 0.90 }
    else if filename.count '.' > 1 then
      some { type := "SUSPICIOUS_ATTACHMENT_NAME", confidence := 0.85 }
    else if (mediumRiskExtensions.any fun ext => goHasSuffix filename ext) &&
        hasUrgencyLanguage e then
      some { type := "MEDIUM_RISK_ATTACHMENT_WITH_URGENCY", confidence := 0.70 }
    else scanAttachments e rest

/-- Embedding of `AttachmentStrategy.Detect` (suspicious attachments). -/
def attachmentDetect (e : Email) (_r : Option User)
    (_ctx : DetectionContext) : Option Detection :=
  if !e.hasAttachments then none
  else scanAttachments e e.attachmentNames

/-- C-suite role vocabulary of `BECRoleStrategy.Detect`
(bec_role_strategy.go), English and French synonym lists. -/
def cSuiteRoles : List (List Char) :=
  [str "ceo", str "cfo", str "cto", str "coo", str "president", str "chief",
   str "vice president", str "vp",
   str "pdg", str "président directeur général", str "directeur général",
   str "dg", str "daf", str "directeur administratif et financier",
   str "directeur financier", str "dsi",
   str "directeur des systèmes d'information",
   str "directeur", str "direction générale"]

/-- Finance role vocabulary of `BECRoleStrategy.Detect`. -/
def financeRoles : List (List Char) :=
  [str "finance", str "accounting", str "treasurer", str "controller",
   str "payroll",
   str "comptabilité", str "comptable", str "trésorier", str "trésorerie",
   str "contrôleur de gestion", str "contrôleur financier",
   str "responsable financier", str "responsable comptable",
   str "service comptable", str "paie"]

/-- HR role vocabulary of `BECRoleStrategy.Detect`. -/
def hrRoles : List (List Char) :=
  [str "hr", str "human resources", str "recruiting", str "talent",
   str "drh", str "directeur des ressources humaines",
   str "ressources humaines", str "rh", str "responsable rh",
   str "responsable ressources humaines", str "recrutement",
   str "gestionnaire paie", str "service rh"]

/-- Urgency keyword family of `BECRoleStrategy.Detect`. -/
def becUrgencyKeywords : List (List Char) :=
  [str "urgent", str "immediately", str "asap", str "today",
   str "right away", str "now",
   str "urgent", str "immédiatement", str "rapidement", str "aujourd'hui",
   str "tout de suite", str "au plus vite", str "dans l'immédiat",
   str "sans délai", str "prioritaire", str "en urgence"]

/-- Wire-transfer/payment keyword family of `BECRoleStrategy.Detect`. -/
def wireTransferKeywords : List (List Char) :=
  [str "wire transfer", str "payment", str "invoice", str "bank account",
   str "routing", str "iban", str "swift",
   str "virement", str "virement bancaire", str "paiement", str "facture",
   str "compte bancaire", str "rib", str "relevé d'identité bancaire",
   str "iban", str "bic", str "swift", str "coordonnées bancaires",
   str "ordre de virement", str "transfert de fonds"]

/-- Payroll/tax document keyword family of `BECRoleStrategy.Detect`. -/
def payrollDocKeywords : List (List Char) :=
  [str "tax form", str "payroll",
   str "bulletin de paie", str "bulletin de salaire", str "fiche de paie",
   str "numéro de sécurité sociale", str "n° sécurité sociale",
   str "cotisations sociales", str "déclaration de revenus",
   str "dsn", str "déclaration sociale nominative",
   str "attestation fiscale", str "salaires"]

/-- Embedding of `BECRoleStrategy.Detect` (bec_role_strategy.go). -/
def becRoleDetect (e : Email) (r : Option User)
    (ctx : DetectionContext) : Option Detection :=
  match r with
  | none => none
  | some recipient =>
    if recipient.role = [] then none
    else
      let role := toLowerL recipient.role
      let senderDomain := extractDomain e.senderEmail
      let isExternal := !isInternalDomain senderDomain ctx.internalDomains
      if !isExternal then none
      else
        let isCsuite := containsAny role cSuiteRoles
        let isFinance := containsAny role financeRoles
        let isHR := containsAny role hrRoles
        if !isCsuite && !isFinance && !isHR then none
        else
          let text := toLowerL (e.subject ++ str " " ++ e.bodyPreview)
          let hasUrgency := containsAny text becUrgencyKeywords
          let hasWireTransfer := containsAny text wireTransferKeywords
          let hasPayrollDoc := containsAny text payrollDocKeywords
          if isCsuite && hasUrgency && hasWireTransfer then
            some { type := "BEC_CSUITE_TARGETING", confidence := 0.90 }
          else if isFinance && hasWireTransfer then
            some { type := "BEC_FINANCE_TARGETING", confidence := 0.85 }
          else if isHR && hasPayrollDoc then
            some { type := "BEC_HR_PAYROLL_SCAM", confidence := 0.80 }
          else if (isCsuite || isFinance || isHR) && hasUrgency then
            some { type := "BEC_HIGH_VALUE_TARGET", confidence := 0.70 }
          else none

/-- Per-type weight table of `Detector.calculateRiskScore`
(strategy.go); association-list model of the Go map literal. -/
def weightsTable : List (String × ℚ) :=
  [("DOMAIN_TYPOSQUATTING", 1.5),
   ("DISPLAY_NAME_MISMATCH", 1.3),
   ("AUTH_FAILURES", 1.2),
   ("HIGH_RISK_ATTACHMENT", 1.5),
   ("SUSPICIOUS_ATTACHMENT_NAME", 1.3),
   ("URGENCY_FINANCIAL_LANGUAGE", 1.0),
   ("REPLY_TO_MISMATCH", 1.1),
   ("MEDIUM_RISK_ATTACHMENT_WITH_URGENCY", 1.0),
   ("BEC_CSUITE_TARGETING", 1.6),
   ("BEC_FINANCE_TARGETING", 1.5),
   ("BEC_HR_W2_SCAM", 1.4),
   ("BEC_HIGH_VALUE_TARGET", 1.2)]

/-- Weight applied to a detection type: the Go map access
`weights[detection.Type]` yields the zero value `0.0` for a missing key,
and the source replaces a zero weight by the default `1.0`. -/
def typeWeight (t : String) : ℚ :=
  let weight := (weightsTable.lookup t).getD 0
  if weight = 0 then 1 else weight

/-- Embedding of `Detector.calculateRiskScore` (strategy.go): weighted
maximum of the signal confidences, clamped to at most `1.0`. -/
def calculateRiskScore (detections : List Detection) : ℚ :=
  if detections.length = 0 then 0
  else
    let maxScore := detections.foldl
      (fun maxScore detection =>
        let score := detection.confidence * typeWeight detection.type
        if score > maxScore then score else maxScore) 0
    min maxScore 1

/-- The fixed strategy battery of `NewDetector` (strategy.go), in
construction order, run against one message as in `AnalyzeEmail`:
non-abstaining signals are collected in invocation order. -/
def runStrategies (ctx : DetectionContext) (e : Email)
    (r : Option User) : List Detection :=
  [displayNameDetect e r ctx,
   typosquattingDetect e r ctx,
   authFailuresDetect e r ctx,
   urgencyFinancialDetect e r ctx,
   replyToDetect e r ctx,
   attachmentDetect e r ctx,
   becRoleDetect e r ctx].filterMap id

/-- Embedding of `Detector.AnalyzeEmail` (strategy.go). -/
def analyzeEmail (ctx : DetectionContext) (e : Email)
    (r : Option User) : FraudAnalysis :=
  let detections := runStrategies ctx e r
  let riskScore := calculateRiskScore detections
  { riskScore := riskScore,
    riskLevel := RiskLevel riskScore,
    detectedThreats := detections }

/-- SPF check of the authentication-failures strategy: the
`Received-SPF` header is present and its value contains `fail`
case-insensitively. -/
def spfFailed (e : Email) : Bool :=
  match lookupHeader e.headers (str "Received-SPF") with
  | some v => goContains (toLowerL v) (str "fail")
  | none => false

/-- DKIM check of the authentication-failures strategy: the
`Authentication-Results` header is present and contains `dkim=fail`. -/
def dkimFailed (e : Email) : Bool :=
  match lookupHeader e.headers (str "Authentication-Results") with
  | some v => goContains (toLowerL v) (str "dkim=fail")
  | none => false

/-- DMARC check of the authentication-failures strategy: the
`Authentication-Results` header is present and contains `dmarc=fail`. -/
def dmarcFailed (e : Email) : Bool :=
  match lookupHeader e.headers (str "Authentication-Results") with
  | some v => goContains (toLowerL v) (str "dmarc=fail")
  | none => false

/-- Spec-side definition (spec section 4.10): the maximum over all
signals of `confidence * typeWeight(type)`; meaningful for non-empty
signal lists. -/
def specMaxWeighted : List Detection → ℚ
  | [] => 0
  | d :: rest =>
    match rest with
    | [] => d.confidence * typeWeight d.type
    | e :: rs => max (d.confidence * typeWeight d.type) (specMaxWeighted (e :: rs))

/-- Spec-side restatement of claim C4 / spec section 4.9: the BEC
role-targeting strategy abstains for an absent recipient, an empty role
label or an internal sender, and otherwise returns the first match of
its four rules in priority order. -/
def becRoleSpec (e : Email) (r : Option User)
    (ctx : DetectionContext) : Option Detection :=
  match r with
  | none => none
  | some recipient =>
    if recipient.role = [] then none
    else if isInternalDomain (extractDomain e.senderEmail) ctx.internalDomains then
      none
    else
      let role := toLowerL recipient.role
      let text := toLowerL (e.subject ++ str " " ++ e.bodyPreview)
      if containsAny role cSuiteRoles && containsAny text becUrgencyKeywords &&
          containsAny text wireTransferKeywords then
        some { type := "BEC_CSUITE_TARGETING", confidence := 0.90 }
      else if containsAny role financeRoles && containsAny text wireTransferKeywords then
        some { type := "BEC_FINANCE_TARGETING", confidence := 0.85 }
      else if containsAny role hrRoles && containsAny text payrollDocKeywords then
        some { type := "BEC_HR_PAYROLL_SCAM", confidence := 0.80 }
      else if (containsAny role cSuiteRoles || containsAny role financeRoles ||
          containsAny role hrRoles) && containsAny text becUrgencyKeywords then
        some { type := "BEC_HIGH_VALUE_TARGET", confidence := 0.70 }
      else none

/-- Degenerate message with every field empty (claim C10). -/
def emptyEmail : Email :=
  { subject := [], senderEmail := [], senderName := [], bodyPreview := [],
    hasAttachments := false, attachmentNames := [], headers := [] }

/-- Concrete message for the HR-payroll scenario of claim C3: external
sender, no executive display name, payroll request in the body. -/
def hrScamEmail : Email :=
  { subject := str "",
    senderEmail := str "mallory@external.com",
    senderName := str "Alice",
    bodyPreview := str "please send payroll",
    hasAttachments := false,
    attachmentNames := [],
    headers := [] }

/-- Concrete HR recipient for claim C3. -/
def hrRecipient : User :=
  { email := str "hr@company.com", role := str "HR Director" }

/-- Concrete context for claim C3: one internal domain, no trusted
domains. -/
def hrScamContext : DetectionContext :=
  { internalDomains := [str "company.com"], trustedDomains := [] }

/-- Concrete message for the typosquatting scenario of claim C5. -/
def typoEmail : Email :=
  { subject := str "",
    senderEmail := str "user@micros0ft.com",
    senderName := str "",
    bodyPreview := str "",
    hasAttachments := false,
    attachmentNames := [],
    headers := [] }

/-- Concrete context for claim C5: `microsoft.com` is trusted. -/
def typoContext : DetectionContext :=
  { internalDomains := [], trustedDomains := [str "microsoft.com"] }

/-- Concrete message for the urgency+financial witness of claim C7. -/
def urgencyEmail : Email :=
  { subject := str "urgent",
    senderEmail := str "",
    senderName := str "",
    bodyPreview := str "wire transfer payment invoice",
    hasAttachments := false,
    attachmentNames := [],
    headers := [] }
theorem levenshteinDistance_nil_left (s : List Char) :
    levenshteinDistance [] s = s.length := by
  simp only [levenshteinDistance]

theorem levenshteinDistance_nil_right (s : List Char) :
    levenshteinDistance s [] = s.length := by
  cases s <;> simp only [levenshteinDistance, List.length_nil]

theorem levenshteinDistance_cons_cons (x y : Char) (xs ys : List Char) :
    levenshteinDistance (x :: xs) (y :: ys) =
      min (levenshteinDistance xs (y :: ys) + 1)
        (min (levenshteinDistance (x :: xs) ys + 1)
          (levenshteinDistance xs ys + if x = y then 0 else 1)) := by
  simp only [levenshteinDistance]

theorem levenshteinDistance_self (s : List Char) :
    levenshteinDistance s s = 0 := by
  induction s with
  | nil => exact levenshteinDistance_nil_left []
  | cons x xs ih =>
    rw [levenshteinDistance_cons_cons, ih]
    simp

theorem levenshteinDistance_symm (a b : List Char) :
    levenshteinDistance a b = levenshteinDistance b a := by
  induction a generalizing b with
  | nil => rw [levenshteinDistance_nil_left, levenshteinDistance_nil_right]
  | cons x xs ih =>
    induction b with
    | nil => rw [levenshteinDistance_nil_left, levenshteinDistance_nil_right]
    | cons y ys ihb =>
      rw [levenshteinDistance_cons_cons, levenshteinDistance_cons_cons]
      rw [ih (y :: ys), ihb, ih ys]
      have hcost : (if x = y then 0 else 1) = (if y = x then 0 else 1) := by
        rcases eq_or_ne x y with h | h
        · subst h; rfl
        · rw [if_neg h, if_neg (Ne.symm h)]
      rw [hcost]
      omega

theorem levenshteinDistance_eq_zero {a b : List Char}
    (h : levenshteinDistance a b = 0) : a = b := by
  induction a generalizing b with
  | nil =>
    rw [levenshteinDistance_nil_left] at h
    exact (List.length_eq_zero.mp h).symm
  | cons x xs ih =>
    cases b with
    | nil =>
      rw [levenshteinDistance_nil_right] at h
      simp at h
    | cons y ys =>
      rw [levenshteinDistance_cons_cons] at h
      have hsub : levenshteinDistance xs ys + (if x = y then 0 else 1) = 0 := by
        omega
      have hxy : x = y := by
        by_cases hc : x = y
        · exact hc
        · simp [hc] at hsub
      have hzero : levenshteinDistance xs ys = 0 := by
        simp [hxy] at hsub
        exact hsub
      rw [hxy, ih hzero]

theorem levenshteinDistance_cons_same_le (c : Char) (a b : List Char) :
    levenshteinDistance (c :: a) (c :: b) ≤ levenshteinDistance a b := by
  rw [levenshteinDistance_cons_cons]
  have h : (if c = c then 0 else 1) = 0 := if_pos rfl
  rw [h]
  omega

theorem levenshteinDistance_cons_le (x y : Char) (a b : List Char) :
    levenshteinDistance (x :: a) (y :: b) ≤ levenshteinDistance a b + 1 := by
  rw [levenshteinDistance_cons_cons]
  rcases eq_or_ne x y with h | h
  · rw [if_pos h]; omega
  · rw [if_neg h]; omega

theorem levenshteinDistance_append_left_le (p a b : List Char) :
    levenshteinDistance (p ++ a) (p ++ b) ≤ levenshteinDistance a b := by
  induction p with
  | nil => simp
  | cons c cs ih =>
    calc levenshteinDistance (c :: (cs ++ a)) (c :: (cs ++ b))
        ≤ levenshteinDistance (cs ++ a) (cs ++ b) :=
          levenshteinDistance_cons_same_le c _ _
      _ ≤ levenshteinDistance a b := ih


/-- Claim C6: the edit-distance utility is symmetric, zero on identical
strings, degenerate on the empty string, and zero only for identical
strings. -/
theorem claim_C6 :
    (∀ a b, levenshteinDistance a b = levenshteinDistance b a) ∧
    (∀ s, levenshteinDistance s s = 0) ∧
    (∀ s, levenshteinDistance [] s = s.length) ∧
    (∀ a b, levenshteinDistance a b = 0 → a = b) :=
  ⟨levenshteinDistance_symm, levenshteinDistance_self,
   levenshteinDistance_nil_left, fun _ _ h => levenshteinDistance_eq_zero h⟩

/-- Witness for claim C6: the zero-implies-equal conjunct applied at a
concrete pair of identical strings. -/
theorem claim_C6_witness :
    levenshteinDistance (str "ab") (str "ab") = 0 ∧ str "ab" = str "ab" :=
  ⟨levenshteinDistance_self (str "ab"),
   claim_C6.2.2.2 (str "ab") (str "ab") (levenshteinDistance_self (str "ab"))⟩

theorem specMaxWeighted_single (d : Detection) :
    specMaxWeighted [d] = d.confidence * typeWeight d.type := rfl

theorem specMaxWeighted_cons (d e : Detection) (rs : List Detection) :
    specMaxWeighted (d :: e :: rs) =
      max (d.confidence * typeWeight d.type) (specMaxWeighted (e :: rs)) := rfl

theorem weightsTable_lookup_pos (t : String) (v : ℚ)
    (h : weightsTable.lookup t = some v) : 0 < v := by
  simp only [weightsTable, List.lookup] at h
  repeat' split at h
  all_goals first
    | exact Option.noConfusion h
    | (injection h with h; subst h; norm_num)

theorem typeWeight_pos (t : String) : 0 < typeWeight t := by
  unfold typeWeight
  rcases hl : weightsTable.lookup t with _ | v
  · simp only [hl, Option.getD_none, if_pos rfl]
    norm_num
  · have hv := weightsTable_lookup_pos t v hl
    simp only [hl, Option.getD_some]
    rw [if_neg (ne_of_gt hv)]
    exact hv

theorem riskStep_eq (m s : ℚ) : (if s > m then s else m) = max m s := by
  rcases le_or_lt s m with h | h
  · rw [if_neg (not_lt.mpr h), max_eq_left h]
  · rw [if_pos h, max_eq_right h.le]

theorem riskFold_cons (d : Detection) (rest : List Detection) (m : ℚ) :
    (d :: rest).foldl
      (fun maxScore detection =>
        let score := detection.confidence * typeWeight detection.type
        if score > maxScore then score else maxScore) m
    = max m (specMaxWeighted (d :: rest)) := by
  induction rest generalizing m d with
  | nil =>
    rw [List.foldl_cons, List.foldl_nil, specMaxWeighted_single]
    exact riskStep_eq m (d.confidence * typeWeight d.type)
  | cons e rs ih =>
    rw [List.foldl_cons]
    have hstep : (let score := d.confidence * typeWeight d.type
        if score > m then score else m)
        = max m (d.confidence * typeWeight d.type) :=
      riskStep_eq m (d.confidence * typeWeight d.type)
    rw [hstep, ih e, specMaxWeighted_cons, max_assoc]

theorem specMaxWeighted_nonneg (d : Detection) (rest : List Detection)
    (h : ∀ x ∈ d :: rest, (0:ℚ) ≤ x.confidence) :
    0 ≤ specMaxWeighted (d :: rest) := by
  induction rest generalizing d with
  | nil =>
    rw [specMaxWeighted_single]
    exact mul_nonneg (h d (by simp)) (typeWeight_pos d.type).le
  | cons e rs ih =>
    rw [specMaxWeighted_cons]
    refine le_max_of_le_right (ih e ?_)
    intro x hx
    exact h x (by simp at hx ⊢; tauto)

theorem calculateRiskScore_cons (d : Detection) (rest : List Detection) :
    calculateRiskScore (d :: rest) =
      min (max 0 (specMaxWeighted (d :: rest))) 1 := by
  unfold calculateRiskScore
  rw [if_neg (by simp), riskFold_cons]

/-- Claim C1: the aggregate risk score is `0.0` for an empty signal
list, and otherwise `min(1, max over all signals of
confidence * typeWeight(type))`; any type absent from the per-type
weight table receives the default weight `1.0`. -/
theorem claim_C1 (ds : List Detection) (h : ∀ d ∈ ds, (0:ℚ) ≤ d.confidence) :
    (calculateRiskScore ds = if ds = [] then 0 else min 1 (specMaxWeighted ds)) ∧
    (∀ t, weightsTable.lookup t = none → typeWeight t = 1) := by
  constructor
  · cases ds with
    | nil => simp [calculateRiskScore]
    | cons d rest =>
      rw [calculateRiskScore_cons, if_neg (by simp),
        max_eq_right (specMaxWeighted_nonneg d rest h), min_comm]
  · intro t ht
    simp [typeWeight, ht]

/-- Witness for claim C1 at a concrete singleton signal list. -/
theorem claim_C1_witness :
    calculateRiskScore [{ type := "DOMAIN_TYPOSQUATTING", confidence := 0.90 }] =
      (if ([{ type := "DOMAIN_TYPOSQUATTING", confidence := 0.90 }] : List Detection) = []
       then 0
       else min 1 (specMaxWeighted
         [{ type := "DOMAIN_TYPOSQUATTING", confidence := 0.90 }])) :=
  (claim_C1 [{ type := "DOMAIN_TYPOSQUATTING", confidence := 0.90 }]
    (by intro d hd; simp at hd; subst hd; norm_num)).1

theorem calculateRiskScore_nonneg (ds : List Detection) :
    0 ≤ calculateRiskScore ds := by
  cases ds with
  | nil => simp [calculateRiskScore]
  | cons d rest =>
    rw [calculateRiskScore_cons]
    exact le_min (le_max_left 0 _) zero_le_one

theorem calculateRiskScore_le_one (ds : List Detection) :
    calculateRiskScore ds ≤ 1 := by
  cases ds with
  | nil => simp [calculateRiskScore]
  | cons d rest =>
    rw [calculateRiskScore_cons]
    exact min_le_right _ 1

/-- Claim C2: every verdict's risk score lies in `[0, 1]` and its level
is exactly the fixed threshold function of the score. -/
theorem claim_C2 (ctx : DetectionContext) (e : Email) (r : Option User) :
    0 ≤ (analyzeEmail ctx e r).riskScore ∧
    (analyzeEmail ctx e r).riskScore ≤ 1 ∧
    (analyzeEmail ctx e r).riskLevel =
      (if (analyzeEmail ctx e r).riskScore ≥ 0.85 then "critical"
       else if (analyzeEmail ctx e r).riskScore ≥ 0.70 then "high"
       else if (analyzeEmail ctx e r).riskScore ≥ 0.50 then "medium"
       else if (analyzeEmail ctx e r).riskScore ≥ 0.30 then "low"
       else "none") :=
  ⟨calculateRiskScore_nonneg (runStrategies ctx e r),
   calculateRiskScore_le_one (runStrategies ctx e r),
   rfl⟩

/-- Claim C9: the authentication-failures strategy signals
`AUTH_FAILURES` at confidence `0.80` exactly when at least two of the
SPF/DKIM/DMARC checks fail. -/
theorem claim_C9 (e : Email) (r : Option User) (ctx : DetectionContext) :
    authFailuresDetect e r ctx =
      if 2 ≤ (if spfFailed e then 1 else 0) + (if dkimFailed e then 1 else 0) +
          (if dmarcFailed e then 1 else 0) then
        some { type := "AUTH_FAILURES", confidence := 0.80 }
      else none := by
  rcases h1 : lookupHeader e.headers (str "Received-SPF") with _ | spf <;>
    rcases h2 : lookupHeader e.headers (str "Authentication-Results") with _ | ar <;>
    simp only [authFailuresDetect, spfFailed, dkimFailed, dmarcFailed, h1, h2] <;>
    split_ifs <;> simp_all

/-- Claim C8: the attachment strategy abstains without attachments and
otherwise scans the names in order, first match wins, testing high-risk
extensions, then the double-extension trick, then medium-risk extensions
combined with urgency language. -/
theorem claim_C8 (e : Email) (r : Option User) (ctx : DetectionContext) :
    (e.hasAttachments = false → attachmentDetect e r ctx = none) ∧
    (e.hasAttachments = true →
      attachmentDetect e r ctx = scanAttachments e e.attachmentNames) ∧
    (∀ name rest, scanAttachments e (name :: rest) =
      if highRiskExtensions.any fun ext => goHasSuffix (toLowerL name) ext then
        some { type := "HIGH_RISK_ATTACHMENT", confidence := 0.90 }
      else if (toLowerL name).count '.' > 1 then
        some { type := "SUSPICIOUS_ATTACHMENT_NAME", confidence := 0.85 }
      else if (mediumRiskExtensions.any fun ext => goHasSuffix (toLowerL name) ext) &&
          hasUrgencyLanguage e then
        some { type := "MEDIUM_RISK_ATTACHMENT_WITH_URGENCY", confidence := 0.70 }
      else scanAttachments e rest) := by
  refine ⟨fun h => ?_, fun h => ?_, fun name rest => ?_⟩
  · simp [attachmentDetect, h]
  · simp [attachmentDetect, h]
  · rfl

/-- Witness for claim C8: the no-attachments conjunct applied at the
degenerate empty message. -/
theorem claim_C8_witness :
    attachmentDetect emptyEmail none
      { internalDomains := [], trustedDomains := [] } = none :=
  (claim_C8 emptyEmail none { internalDomains := [], trustedDomains := [] }).1 rfl

/-- Claim C4: the BEC role-targeting strategy agrees everywhere with the
spec-side cascade `becRoleSpec` (abstain on absent recipient, empty role
or internal sender; otherwise first match of the four prioritized
rules). -/
theorem claim_C4 (e : Email) (r : Option User) (ctx : DetectionContext) :
    becRoleDetect e r ctx = becRoleSpec e r ctx := by
  rcases r with _ | recipient
  · rfl
  · simp only [becRoleDetect, becRoleSpec]
    by_cases hrole : recipient.role = []
    · simp [hrole]
    · rw [if_neg hrole, if_neg hrole]
      cases hint : isInternalDomain (extractDomain e.senderEmail) ctx.internalDomains
      · simp only [hint, Bool.not_false, Bool.not_true, if_false]
        cases hC : containsAny (toLowerL recipient.role) cSuiteRoles <;>
          cases hF : containsAny (toLowerL recipient.role) financeRoles <;>
          cases hH : containsAny (toLowerL recipient.role) hrRoles <;>
          simp [hC, hF, hH]
      · simp [hint]

/-- Claim C7: the urgency+financial strategy signals exactly when its
weighted keyword score exceeds `1.5`, with confidence
`min(0.70 + (score - 1.5) * 0.1, 0.95)`; every emitted confidence is
strictly above `0.70` and at most `0.95`. -/
theorem claim_C7 (e : Email) (r : Option User) (ctx : DetectionContext) :
    (urgencyFinancialDetect e r ctx =
      if urgencyFinancialScore e > 1.5 then
        some { type := "URGENCY_FINANCIAL_LANGUAGE",
               confidence := min (0.70 + (urgencyFinancialScore e - 1.5) * 0.1) 0.95 }
      else none) ∧
    (∀ d, urgencyFinancialDetect e r ctx = some d →
      0.70 < d.confidence ∧ d.confidence ≤ 0.95) := by
  have heq : urgencyFinancialDetect e r ctx =
      if urgencyFinancialScore e > 1.5 then
        some { type := "URGENCY_FINANCIAL_LANGUAGE",
               confidence := min (0.70 + (urgencyFinancialScore e - 1.5) * 0.1) 0.95 }
      else none := rfl
  refine ⟨heq, fun d hd => ?_⟩
  rw [heq] at hd
  by_cases hs : urgencyFinancialScore e > 1.5
  · rw [if_pos hs] at hd
    obtain rfl := Option.some.inj hd
    constructor
    · have hpos : (0:ℚ) < (urgencyFinancialScore e - 1.5) * 0.1 :=
        mul_pos (by linarith) (by norm_num)
      show (0.70:ℚ) < min (0.70 + (urgencyFinancialScore e - 1.5) * 0.1) 0.95
      exact lt_min (by linarith) (by norm_num)
    · exact min_le_right _ _
  · rw [if_neg hs] at hd
    exact absurd hd (by simp)

/-- Witness for claim C7 on a concrete urgent wire-transfer message
(score 3.3, emitted confidence 0.88). -/
theorem claim_C7_witness : (0.70:ℚ) < 0.88 ∧ (0.88:ℚ) ≤ 0.95 := by
  have h1 : countKeywords
      (toLowerL (urgencyEmail.subject ++ str " " ++ urgencyEmail.bodyPreview))
      urgencyKeywords = 1 := by decide
  have h2 : countKeywords
      (toLowerL (urgencyEmail.subject ++ str " " ++ urgencyEmail.bodyPreview))
      financialKeywords = 6 := by decide
  have h3 : countKeywords
      (toLowerL (urgencyEmail.subject ++ str " " ++ urgencyEmail.bodyPreview))
      authorityKeywords = 0 := by decide
  have hscore : urgencyFinancialScore urgencyEmail = 3.3 := by
    simp only [urgencyFinancialScore, h1, h2, h3]
    norm_num
  have hmin : min (0.70 + ((3.3:ℚ) - 1.5) * 0.1) 0.95 = 0.88 := by
    rw [min_eq_left (by norm_num)]
    norm_num
  have hd : urgencyFinancialDetect urgencyEmail none hrScamContext =
      some { type := "URGENCY_FINANCIAL_LANGUAGE", confidence := 0.88 } := by
    simp only [urgencyFinancialDetect, hscore]
    rw [if_pos (by norm_num : (3.3:ℚ) > 1.5), hmin]
  exact (claim_C7 urgencyEmail none hrScamContext).2
    { type := "URGENCY_FINANCIAL_LANGUAGE", confidence := 0.88 } hd

/-- Claim C3: the type `BEC_HR_PAYROLL_SCAM` emitted by the BEC strategy
is absent from the weight table (which holds `BEC_HR_W2_SCAM` instead),
so it receives the default weight `1.0`; a verdict whose only signal is
that type at confidence `0.80` scores exactly `0.80` with level
`high`. -/
theorem claim_C3 :
    (weightsTable.lookup "BEC_HR_PAYROLL_SCAM" = none) ∧
    (typeWeight "BEC_HR_PAYROLL_SCAM" = 1) ∧
    (∀ ctx e r, runStrategies ctx e r =
        [{ type := "BEC_HR_PAYROLL_SCAM", confidence := 0.80 }] →
      (analyzeEmail ctx e r).riskScore = 0.80 ∧
      (analyzeEmail ctx e r).riskLevel = "high") := by
  have hlook : weightsTable.lookup "BEC_HR_PAYROLL_SCAM" = none := by decide
  have htw : typeWeight "BEC_HR_PAYROLL_SCAM" = 1 := by
    simp [typeWeight, hlook]
  refine ⟨hlook, htw, fun ctx e r h => ?_⟩
  have hscore : (analyzeEmail ctx e r).riskScore = 0.80 := by
    simp only [analyzeEmail, h, calculateRiskScore_cons, specMaxWeighted_single, htw]
    rw [mul_one, max_eq_right (by norm_num : (0:ℚ) ≤ 0.80),
      min_eq_left (by norm_num : (0.80:ℚ) ≤ 1)]
  refine ⟨hscore, ?_⟩
  have hlevel : (analyzeEmail ctx e r).riskLevel =
      RiskLevel ((analyzeEmail ctx e r).riskScore) := rfl
  rw [hlevel, hscore]
  unfold RiskLevel
  rw [if_neg (by norm_num), if_pos (by norm_num)]

/-- Witness for claim C3: the concrete HR-payroll scenario in which the
BEC strategy is the only one to fire. -/
theorem claim_C3_witness :
    (analyzeEmail hrScamContext hrScamEmail (some hrRecipient)).riskScore = 0.80 ∧
    (analyzeEmail hrScamContext hrScamEmail (some hrRecipient)).riskLevel = "high" := by
  have hscU : urgencyFinancialScore hrScamEmail = 0.5 := by
    have h1 : countKeywords
        (toLowerL (hrScamEmail.subject ++ str " " ++ hrScamEmail.bodyPreview))
        urgencyKeywords = 0 := by decide
    have h2 : countKeywords
        (toLowerL (hrScamEmail.subject ++ str " " ++ hrScamEmail.bodyPreview))
        financialKeywords = 1 := by decide
    have h3 : countKeywords
        (toLowerL (hrScamEmail.subject ++ str " " ++ hrScamEmail.bodyPreview))
        authorityKeywords = 0 := by decide
    simp only [urgencyFinancialScore, h1, h2, h3]
    norm_num
  have h4 : urgencyFinancialDetect hrScamEmail (some hrRecipient) hrScamContext = none := by
    simp only [urgencyFinancialDetect, hscU]
    rw [if_neg (by norm_num : ¬((0.5:ℚ) > 1.5))]
  have h1 : displayNameDetect hrScamEmail (some hrRecipient) hrScamContext = none := rfl
  have h2 : typosquattingDetect hrScamEmail (some hrRecipient) hrScamContext = none := rfl
  have h3 : authFailuresDetect hrScamEmail (some hrRecipient) hrScamContext = none := rfl
  have h5 : replyToDetect hrScamEmail (some hrRecipient) hrScamContext = none := rfl
  have h6 : attachmentDetect hrScamEmail (some hrRecipient) hrScamContext = none := rfl
  have h7 : becRoleDetect hrScamEmail (some hrRecipient) hrScamContext =
      some { type := "BEC_HR_PAYROLL_SCAM", confidence := 0.80 } := rfl
  have hrun : runStrategies hrScamContext hrScamEmail (some hrRecipient) =
      [{ type := "BEC_HR_PAYROLL_SCAM", confidence := 0.80 }] := by
    simp only [runStrategies, h1, h2, h3, h4, h5, h6, h7]
    rfl
  exact claim_C3.2.2 hrScamContext hrScamEmail (some hrRecipient) hrun

theorem levenshtein_micros0ft :
    levenshteinDistance (str "micros0ft.com") (str "microsoft.com") = 1 := by
  have hup : levenshteinDistance (str "micros0ft.com") (str "microsoft.com") ≤ 1 := by
    have h1 : str "micros0ft.com" = str "micros" ++ ('0' :: str "ft.com") := rfl
    have h2 : str "microsoft.com" = str "micros" ++ ('o' :: str "ft.com") := rfl
    rw [h1, h2]
    calc levenshteinDistance (str "micros" ++ ('0' :: str "ft.com"))
          (str "micros" ++ ('o' :: str "ft.com"))
        ≤ levenshteinDistance ('0' :: str "ft.com") ('o' :: str "ft.com") :=
          levenshteinDistance_append_left_le _ _ _
      _ ≤ levenshteinDistance (str "ft.com") (str "ft.com") + 1 :=
          levenshteinDistance_cons_le _ _ _ _
      _ = 1 := by rw [levenshteinDistance_self]
  have hne : str "micros0ft.com" ≠ str "microsoft.com" := by decide
  have hlow : levenshteinDistance (str "micros0ft.com") (str "microsoft.com") ≠ 0 :=
    fun h0 => hne (levenshteinDistance_eq_zero h0)
  omega

/-- Claim C5: the typosquatting strategy walks the trusted-domain list
in order, skips exact matches, flags the first domain whose similarity
`(1 - distance/maxLen) * 100` lies strictly between 85 and 100 at
confidence `0.90`; in particular `micros0ft.com` against trusted
`microsoft.com` fires. -/
theorem claim_C5 :
    (∀ e r ctx, typosquattingDetect e r ctx =
      typosquatWalk (extractDomain e.senderEmail) ctx.trustedDomains) ∧
    (∀ senderDomain rest, typosquatWalk senderDomain (senderDomain :: rest) =
      typosquatWalk senderDomain rest) ∧
    (∀ senderDomain trustedDomain rest, senderDomain ≠ trustedDomain →
      typosquatWalk senderDomain (trustedDomain :: rest) =
        if (1 - (levenshteinDistance senderDomain trustedDomain : ℚ) /
              ((max senderDomain.length trustedDomain.length : Nat) : ℚ)) * 100 > 85 ∧
            (1 - (levenshteinDistance senderDomain trustedDomain : ℚ) /
              ((max senderDomain.length trustedDomain.length : Nat) : ℚ)) * 100 < 100 then
          some { type := "DOMAIN_TYPOSQUATTING", confidence := 0.90 }
        else typosquatWalk senderDomain rest) ∧
    typosquattingDetect typoEmail none typoContext =
      some { type := "DOMAIN_TYPOSQUATTING", confidence := 0.90 } := by
  refine ⟨fun e r ctx => rfl, fun senderDomain rest => ?_,
    fun senderDomain trustedDomain rest h => ?_, ?_⟩
  · simp [typosquatWalk]
  · simp only [typosquatWalk]
    rw [if_neg h]
  · have h0 : typosquattingDetect typoEmail none typoContext =
        typosquatWalk (str "micros0ft.com") [str "microsoft.com"] := rfl
    rw [h0]
    simp only [typosquatWalk]
    rw [if_neg (by decide : ¬(str "micros0ft.com" = str "microsoft.com"))]
    rw [levenshtein_micros0ft]
    have hlen : max (str "micros0ft.com").length (str "microsoft.com").length = 13 := rfl
    rw [hlen]
    rw [if_pos (by norm_num)]

/-- Witness for claim C5's non-matching-domain conjunct at a concrete
pair of distinct domains. -/
theorem claim_C5_witness :
    typosquatWalk (str "a.com") [str "b.com"] =
      (if (1 - (levenshteinDistance (str "a.com") (str "b.com") : ℚ) /
            ((max (str "a.com").length (str "b.com").length : Nat) : ℚ)) * 100 > 85 ∧
          (1 - (levenshteinDistance (str "a.com") (str "b.com") : ℚ) /
            ((max (str "a.com").length (str "b.com").length : Nat) : ℚ)) * 100 < 100 then
        some { type := "DOMAIN_TYPOSQUATTING", confidence := 0.90 }
      else typosquatWalk (str "a.com") []) :=
  claim_C5.2.2.1 (str "a.com") (str "b.com") [] (by decide)

theorem typosquatWalk_nil_sender (ts : List (List Char)) :
    typosquatWalk [] ts = none := by
  induction ts with
  | nil => rfl
  | cons t rest ih =>
    simp only [typosquatWalk]
    by_cases h : ([] : List Char) = t
    · rw [if_pos h]; exact ih
    · rw [if_neg h]
      have hlen : t.length ≠ 0 := fun h0 => h (List.length_eq_zero.mp h0).symm
      have hcast : ((t.length : Nat) : ℚ) ≠ 0 := Nat.cast_ne_zero.mpr hlen
      rw [levenshteinDistance_nil_left]
      have hmax : max ([] : List Char).length t.length = t.length := by simp
      rw [hmax, div_self hcast]
      rw [if_neg (by norm_num)]
      exact ih

theorem splitOnChar_of_no_sep (sep : Char) (s : List Char)
    (h : ∀ c ∈ s, c ≠ sep) : splitOnChar sep s = [s] := by
  induction s with
  | nil => rfl
  | cons c cs ih =>
    simp only [splitOnChar]
    rw [if_neg (h c (by simp)), ih (fun x hx => h x (by simp [hx]))]

theorem extractDomain_no_at (s : List Char) (h : '@' ∉ s) :
    extractDomain s = [] := by
  unfold extractDomain
  rw [splitOnChar_of_no_sep '@' s (fun c hc hce => h (hce ▸ hc))]
  simp

/-- Claim C10: on the fully empty message with an absent recipient every
strategy abstains and the verdict is score `0.0`, level `none`; a sender
address without `@` yields the empty domain rather than an error. -/
theorem claim_C10 :
    (∀ ctx, analyzeEmail ctx emptyEmail none =
      { riskScore := 0, riskLevel := "none", detectedThreats := [] }) ∧
    (∀ s, '@' ∉ s → extractDomain s = []) := by
  constructor
  · intro ctx
    have h2 : typosquattingDetect emptyEmail none ctx = none := by
      show typosquatWalk (extractDomain emptyEmail.senderEmail) ctx.trustedDomains = none
      have hd : extractDomain emptyEmail.senderEmail = [] := rfl
      rw [hd]
      exact typosquatWalk_nil_sender _
    have h4 : urgencyFinancialDetect emptyEmail none ctx = none := by
      have ha : countKeywords
          (toLowerL (emptyEmail.subject ++ str " " ++ emptyEmail.bodyPreview))
          urgencyKeywords = 0 := by decide
      have hb : countKeywords
          (toLowerL (emptyEmail.subject ++ str " " ++ emptyEmail.bodyPreview))
          financialKeywords = 0 := by decide
      have hc : countKeywords
          (toLowerL (emptyEmail.subject ++ str " " ++ emptyEmail.bodyPreview))
          authorityKeywords = 0 := by decide
      have hsc : urgencyFinancialScore emptyEmail = 0 := by
        simp only [urgencyFinancialScore, ha, hb, hc]
        norm_num
      simp only [urgencyFinancialDetect, hsc]
      rw [if_neg (by norm_num : ¬((0:ℚ) > 1.5))]
    have h1 : displayNameDetect emptyEmail none ctx = none := rfl
    have h3 : authFailuresDetect emptyEmail none ctx = none := rfl
    have h5 : replyToDetect emptyEmail none ctx = none := rfl
    have h6 : attachmentDetect emptyEmail none ctx = none := rfl
    have h7 : becRoleDetect emptyEmail none ctx = none := rfl
    have hdet : runStrategies ctx emptyEmail none = [] := by
      simp only [runStrategies, h1, h2, h3, h4, h5, h6, h7]
      rfl
    have hs0 : calculateRiskScore [] = 0 := rfl
    have hl : RiskLevel 0 = "none" := by
      unfold RiskLevel
      rw [if_neg (by norm_num), if_neg (by norm_num), if_neg (by norm_num),
        if_neg (by norm_num)]
    simp only [analyzeEmail, hdet, hs0, hl]
  · exact extractDomain_no_at

/-- Witness for claim C10: a concrete address with no `@` yields the
empty domain. -/
theorem claim_C10_witness : extractDomain (str "abc") = [] :=
  claim_C10.2 (str "abc") (by decide)
